import Mathlib

/-!
Shallow embedding of the goldi dependency-injection core
(github.com/tarokamikaze/goldi) and proofs about its specification.

The embedding models the reflective Go code over an explicit universe of
Go types (`GoType`) and runtime values (`GoValue`).  Machinery that the Go
code takes from the reflect package (kinds, assignability, zero values,
`Set` panics) is modelled explicitly.  Functions that recurse through the
container/resolver cycle take a fuel parameter; in Go the corresponding
recursion is unbounded (a cyclic registry overflows the stack), which the
model renders as the `fuelOut` outcome.
-/

namespace Goldi

/-- Go reflect.Kind, restricted to the kinds this library distinguishes.
`rawPointerK` stands for Go's raw unsafe pointer kind. -/
inductive GoKind where
  | stringK | intK | boolK | structK | ptrK | funcK | chanK | interfaceK | sliceK | rawPointerK
  deriving DecidableEq, Repr

/-- Go types, as the reflect.Type values this library inspects.
`strukt name fields` is a struct type with its declared field types in order;
`funcT ins variadic outs` is a function type (when `variadic` is true the
last element of `ins` is the slice type of the variadic parameter);
`iface` is the empty interface. `rawPointer` models Go's unsafe pointer type. -/
inductive GoType where
  | str
  | int
  | bool
  | strukt (name : String) (fields : List GoType)
  | ptr (elem : GoType)
  | funcT (ins : List GoType) (variadic : Bool) (outs : List GoType)
  | chanT (elem : GoType)
  | iface
  | slice (elem : GoType)
  | rawPointer
  deriving Repr

mutual
/-- Structural equality test on Go types. -/
def GoType.beq : GoType → GoType → Bool
  | .str, .str => true
  | .int, .int => true
  | .bool, .bool => true
  | .strukt n fs, .strukt m gs => n == m && GoType.beqList fs gs
  | .ptr e, .ptr f => GoType.beq e f
  | .funcT i v o, .funcT j w p => GoType.beqList i j && v == w && GoType.beqList o p
  | .chanT e, .chanT f => GoType.beq e f
  | .iface, .iface => true
  | .slice e, .slice f => GoType.beq e f
  | .rawPointer, .rawPointer => true
  | _, _ => false

/-- Pointwise equality test on lists of Go types. -/
def GoType.beqList : List GoType → List GoType → Bool
  | [], [] => true
  | x :: xs, y :: ys => GoType.beq x y && GoType.beqList xs ys
  | _, _ => false
end

instance : BEq GoType := ⟨GoType.beq⟩

/-- Kind of a type (reflect.Type.Kind). -/
def GoType.kind : GoType → GoKind
  | .str => .stringK
  | .int => .intK
  | .bool => .boolK
  | .strukt _ _ => .structK
  | .ptr _ => .ptrK
  | .funcT _ _ _ => .funcK
  | .chanT _ => .chanK
  | .iface => .interfaceK
  | .slice _ => .sliceK
  | .rawPointer => .rawPointerK

/-- Go runtime values.  Each value carries enough type information for
reflect.TypeOf.  `ptrV t addr` is a pointer of type *t to heap cell `addr`;
`funcV` is an opaque function value; `nilV t` is the zero value of a
pointer/func/interface/slice/chan type `t`; `sliceV t elems` is a non-nil
slice of slice type `t`. -/
inductive GoValue where
  | strV (s : String)
  | intV (n : Int)
  | boolV (b : Bool)
  | struktV (t : GoType) (fields : List GoValue)
  | ptrV (elem : GoType) (addr : Nat)
  | funcV (t : GoType) (fid : Nat)
  | sliceV (t : GoType) (elems : List GoValue)
  | nilV (t : GoType)
  deriving Repr

/-- reflect.TypeOf on a value. -/
def GoValue.typeOf : GoValue → GoType
  | .strV _ => .str
  | .intV _ => .int
  | .boolV _ => .bool
  | .struktV t _ => t
  | .ptrV e _ => .ptr e
  | .funcV t _ => t
  | .sliceV t _ => t
  | .nilV t => t

/-- reflect.Value.Kind of a value. -/
def GoValue.kind (v : GoValue) : GoKind := v.typeOf.kind

/-- Assignability (reflect.Type.AssignableTo) in the model: a type is
assignable to itself and every type is assignable to the empty interface. -/
def assignableTo (t u : GoType) : Bool := t == u || u == GoType.iface

mutual
/-- reflect.Zero of a type. -/
def zeroValue : GoType → GoValue
  | .str => .strV ""
  | .int => .intV 0
  | .bool => .boolV false
  | .strukt n fs => .struktV (.strukt n fs) (zeroValues fs)
  | .ptr e => .nilV (.ptr e)
  | .funcT i v o => .nilV (.funcT i v o)
  | .chanT e => .nilV (.chanT e)
  | .iface => .nilV .iface
  | .slice e => .nilV (.slice e)
  | .rawPointer => .nilV .rawPointer

/-- Zero values of a list of field types. -/
def zeroValues : List GoType → List GoValue
  | [] => []
  | t :: ts => zeroValue t :: zeroValues ts
end

/-- First character of a string, on the underlying character list (the
built-in String functions are not used because they do not reduce inside
the kernel). -/
def headChar (s : String) : Option Char :=
  match s.data with | [] => none | c :: _ => some c

/-- Modelled from the spec: the placeholder syntax predicates live in a
source file that is not part of the provided sources.  A parameter
placeholder has the form percent-name-percent (spec section 6 wire format). -/
def IsParameter (s : String) : Bool :=
  decide (3 ≤ s.data.length) && (headChar s == some '%') && (s.data.getLast? == some '%')

/-- Modelled from the spec: a type reference starts with the at sign
(mandatory `@id`, optional `@?id`, func reference `@id::Method`). -/
def IsTypeReference (s : String) : Bool := headChar s == some '@'

/-- Modelled from the spec: a string is a dynamic argument if it is a
parameter placeholder or a type reference. -/
def IsParameterOrTypeReference (s : String) : Bool :=
  IsParameter s || IsTypeReference s

/-- Parsed form of a type ID with its modifiers (spec section 3: a leading
optional marker and a trailing member selector). -/
structure TypeID where
  Raw : String
  ID : String
  IsOptional : Bool
  IsFuncReference : Bool
  FuncReferenceMethod : String
  deriving DecidableEq, Repr

/-- Split a character list at the first occurrence of a double colon,
keeping what precedes it and what follows it. -/
def splitFuncRef : List Char → Option (List Char × List Char)
  | [] => none
  | ':' :: ':' :: rest => some ([], rest)
  | c :: rest =>
    match splitFuncRef rest with
    | some (a, b) => some (c :: a, b)
    | none => none

/-- Modelled from the spec: NewTypeID parses a raw reference string.  The
leading at sign (if present) is dropped, a leading question mark marks the
reference optional, and a `::Method` selector after the id marks a func
reference to that method. -/
def NewTypeID (raw : String) : TypeID :=
  let l0 := raw.data
  let l1 := match l0 with | '@' :: rest => rest | _ => l0
  let isOpt := match l1 with | '?' :: _ => true | _ => false
  let l2 := match l1 with | '?' :: rest => rest | _ => l1
  match splitFuncRef l2 with
  | some (a, b) => ⟨raw, String.mk a, isOpt, true, String.mk b⟩
  | none => ⟨raw, String.mk l2, isOpt, false, ""⟩

/-- Errors produced by the library.  Constructors mirror the error kinds of
the Go code: `unknownTypeRef` is newUnknownTypeReferenceError (errors.go is
not among the provided sources; modelled from the spec as an error naming
the missing id), `typeRefErr` is newTypeReferenceError, `whileGenerating`
is the wrapping applied by Container.get, and `generic` covers the plain
fmt.Errorf errors. -/
inductive GoErr where
  | unknownTypeRef (id : String) (msg : String)
  | typeRefErr (id : String) (msg : String)
  | whileGenerating (id : String) (inner : GoErr)
  | generic (msg : String)
  deriving DecidableEq, Repr

/-- Rendered error message, mirroring the fmt format strings of the code. -/
def errMessage : GoErr → String
  | .unknownTypeRef id msg => "goldi: " ++ msg ++ " (type " ++ id ++ ")"
  | .typeRefErr id msg => "goldi: " ++ msg ++ " (type " ++ id ++ ")"
  | .whileGenerating id inner =>
      "goldi: error while generating type \"" ++ id ++ "\": " ++ errMessage inner
  | .generic msg => msg

/-- The static description of a Go factory function: its reflect.Type
(parameter types, variadic flag, result types) together with its dynamic
behaviour `impl` (what calling the function returns) and its `name`
(what runtime.FuncForPC reports, used only in error messages). -/
structure FuncDef where
  ins : List GoType
  variadic : Bool
  outs : List GoType
  impl : List GoValue → GoValue
  name : String

/-- The TypeFactory variants the claims are about.  `funcF` is the function
factory of type.go, `structF` the struct factory, `invalidF` the
always-fails descriptor produced by newInvalidType (invalid_type.go is not
among the provided sources; modelled from the spec: it carries the
diagnostic and its Generate always fails with it, its Arguments are empty),
and `instanceF` the instance factory (instance_type.go is not among the
provided sources; modelled from the spec: Generate returns the stored value
unchanged and Arguments is empty). -/
inductive TypeFactory where
  | funcF (factory : FuncDef) (factoryArguments : List GoValue)
  | structF (structType : GoType) (structFields : List GoValue)
  | invalidF (e : GoErr)
  | instanceF (v : GoValue)

/-- newInvalidType captures a registration diagnostic as an always-fails
descriptor. -/
def newInvalidType (e : GoErr) : TypeFactory := .invalidF e

/-- Modelled from the spec: goldi.IsValid reports whether a factory is not
the invalid sentinel. -/
def IsValid : TypeFactory → Bool
  | .invalidF _ => false
  | _ => true

/-- Expected type of argument `i` of factory type `t`
(buildFactoryCallArguments: the variadic tail collapses to the element type
of the final slice parameter). -/
def expectedArgumentType (t : FuncDef) (i : Nat) : GoType :=
  if t.variadic && i ≥ t.ins.length - 1 then
    match t.ins.getLast? with
    | some (.slice e) => e
    | _ => .iface
  else
    t.ins.getD i .iface

/-- The per-argument check of buildFactoryCallArguments: an argument is
rejected at registration exactly when it is a plain string literal (not a
placeholder or reference) whose kind differs from the expected parameter
kind; any other literal is accepted unchecked. -/
def argRegistrationOk (t : FuncDef) (i : Nat) (argument : GoValue) : Bool :=
  let kindMismatch := argument.kind ≠ (expectedArgumentType t i).kind
  let plainString :=
    match argument with
    | .strV s => !IsParameterOrTypeReference s
    | _ => false
  !(kindMismatch && plainString)

/-- Loop body of buildFactoryCallArguments: walks the parameters with their
index, rejecting a plain string literal whose kind differs from the
expected parameter kind. -/
def buildFactoryCallArgumentsGo (t : FuncDef) : Nat → List GoValue → Except GoErr (List GoValue)
  | _, [] => .ok []
  | i, argument :: rest =>
    if argRegistrationOk t i argument then
      match buildFactoryCallArgumentsGo t (i + 1) rest with
      | .ok args => .ok (argument :: args)
      | .error e => .error e
    else
      .error (.generic ("input argument " ++ toString (i + 1) ++
        " is of the wrong kind for the expected parameter type"))

/-- buildFactoryCallArguments of type.go. -/
def buildFactoryCallArguments (t : FuncDef) (allParameters : List GoValue) :
    Except GoErr (List GoValue) :=
  buildFactoryCallArgumentsGo t 0 allParameters

/-- newTypeFromFactoryFunction of type.go: validates the return shape and
the argument count (a variadic factory requires at least NumIn arguments in
this code), then builds the call arguments. -/
def newTypeFromFactoryFunction (fd : FuncDef) (parameters : List GoValue) : TypeFactory :=
  if fd.outs.length ≠ 1 then
    newInvalidType (.generic ("invalid number of return parameters: " ++ toString fd.outs.length))
  else if (fd.outs.getD 0 .iface).kind = .chanK || (fd.outs.getD 0 .iface).kind = .rawPointerK then
    newInvalidType (.generic "return parameter type is not supported for dependency injection")
  else if fd.variadic && fd.ins.length > parameters.length then
    newInvalidType (.generic ("invalid number of input parameters for variadic function: got " ++
      toString parameters.length ++ " but expected at least " ++ toString fd.ins.length))
  else if !fd.variadic && fd.ins.length ≠ parameters.length then
    newInvalidType (.generic ("invalid number of input parameters: got " ++
      toString parameters.length ++ " but expected " ++ toString fd.ins.length))
  else
    match buildFactoryCallArguments fd parameters with
    | .error e => newInvalidType e
    | .ok args => .funcF fd args

/-- NewType of type.go.  In the typed embedding the factory function is a
`FuncDef`, so the nil-function and non-function branches of the Go code are
unreachable and the function-kind branch is taken directly. -/
def NewType (factoryFunction : FuncDef) (factoryParameters : List GoValue) : TypeFactory :=
  newTypeFromFactoryFunction factoryFunction factoryParameters

/-- Declared field types of a struct type (reflect.Type.Field(i).Type). -/
def structFieldTypes : GoType → List GoType
  | .strukt _ fs => fs
  | _ => []

/-- newTypeFromStruct: only the field count is validated (the Go code has a
TODO where argument types would be checked). -/
def newTypeFromStruct (generatedType : GoType) (parameters : List GoValue) : TypeFactory :=
  let numField := (structFieldTypes generatedType).length
  if numField < parameters.length then
    newInvalidType (.generic ("the struct has only " ++ toString numField ++
      " fields but " ++ toString parameters.length ++ " arguments where provided"))
  else
    .structF generatedType parameters

/-- NewStructType: accepts a struct value or a pointer to a struct; only the
type of the given template value is used, the value itself is discarded. -/
def NewStructType (structT : GoValue) (structParameters : List GoValue) : TypeFactory :=
  let t0 := structT.typeOf
  let t := match t0 with | .ptr e => e | _ => t0
  match t with
  | .strukt n fs => newTypeFromStruct (.strukt n fs) structParameters
  | _ => newInvalidType (.generic "the given type must either be a struct or a pointer to a struct")

/-- Modelled from the spec: NewInstanceType wraps a pre-built value and
fails at construction only if the value is nil. -/
def NewInstanceType (v : GoValue) : TypeFactory :=
  match v with
  | .nilV _ => newInvalidType (.generic "the given instance is nil")
  | _ => .instanceF v

/-- Arguments() of a factory: the raw, unresolved argument list. -/
def TypeFactory.arguments : TypeFactory → List GoValue
  | .funcF _ args => args
  | .structF _ fields => fields
  | .invalidF _ => []
  | .instanceF _ => []

/-- Lookup in an association list (the model of a Go map read). -/
def lookupAssoc {α : Type} : List (String × α) → String → Option α
  | [], _ => none
  | (k, v) :: rest, key => if k = key then some v else lookupAssoc rest key

/-- Store in an association list with Go map semantics: an existing key is
overwritten in place, a new key is appended. -/
def storeAssoc {α : Type} : List (String × α) → String → α → List (String × α)
  | [], key, v => [(key, v)]
  | (k, w) :: rest, key, v =>
      if k = key then (key, v) :: rest else (k, w) :: storeAssoc rest key v

/-- Mutable state of one Container: the instance cache (sync.Map typeCache)
plus a heap modelling Go allocations (reflect.New), with `nextAddr` the next
fresh address. -/
structure St where
  cache : List (String × GoValue)
  heap : List (Nat × GoValue)
  nextAddr : Nat

/-- Immutable context of a Container: the TypeRegistry, the Config mapping,
and an oracle for reflect method lookup (MethodByName) on instances, used
only by func references. -/
structure Ctx where
  registry : List (String × TypeFactory)
  config : List (String × GoValue)
  methodEnv : GoValue → String → Option GoValue

/-- Outcome of a call in the model: a Go return value, a returned error, a
Go panic, or exhaustion of the fuel bounding the container/resolver
recursion (in Go this recursion is unbounded and a cyclic registry
overflows the stack). -/
inductive Res (α : Type) where
  | ok (v : α)
  | err (e : GoErr)
  | panicked (msg : String)
  | fuelOut

/-- Outcome of resolving an argument list, remembering at which index an
error occurred (the Go loops report the failing argument position). -/
inductive ArgsRes where
  | ok (vs : List GoValue)
  | err (i : Nat) (e : GoErr)
  | panicked (msg : String)
  | fuelOut

/-- typeFactory.invalidReferencedTypeErr of type.go (the Go message also
renders the signature's parameter types, omitted here). -/
def invalidReferencedTypeErrFunc (fd : FuncDef) (i : Nat) (id : String) : GoErr :=
  .generic ("the referenced type \"@" ++ id ++ "\" can not be passed as argument " ++
    toString (i + 1) ++ " to the function signature " ++ fd.name)

/-- structType.invalidReferencedTypeErr (the Go message also renders the
concrete instance type, omitted here). -/
def invalidReferencedTypeErrStruct (st : GoType) (i : Nat) (id : String) : GoErr :=
  let n := match st with | .strukt nm _ => nm | _ => ""
  .generic ("the referenced type \"@" ++ id ++ "\" can not be used as field " ++
    toString (i + 1) ++ " for struct type " ++ n)

/-- The error-type switch of generateFactoryArguments and
generateTypeFields: a TypeReferenceError is replaced by the
invalid-referenced-type error, any other error is passed through. -/
def remapArgErr (mk : Nat → String → GoErr) (i : Nat) (e : GoErr) : GoErr :=
  match e with
  | .typeRefErr id _ => mk i id
  | e => e

/-- The declared type of the final, variadic parameter
(factoryType.In(NumIn-1)). -/
def variadicSliceType (fd : FuncDef) : GoType :=
  match fd.ins.getLast? with | some t => t | none => .iface

/-- Element type of the variadic parameter (In(NumIn-1).Elem()). -/
def variadicElemType (fd : FuncDef) : GoType :=
  match variadicSliceType fd with | .slice e => e | _ => .iface

/-- reflect Call / CallSlice: panics unless the arguments match the
function's parameter types. -/
def callFn (fd : FuncDef) (args : List GoValue) : Res GoValue :=
  if args.length ≠ fd.ins.length then
    .panicked "reflect: Call with wrong number of arguments"
  else if (args.zip fd.ins).all (fun p => assignableTo p.1.typeOf p.2) then
    .ok (fd.impl args)
  else
    .panicked "reflect: Call using wrong type"

/-- Whether each resolved field value can be Set into its declared field
type (reflect.Value.Set panics otherwise). -/
def fieldsAssignable (vs : List GoValue) (ts : List GoType) : Bool :=
  (vs.zip ts).all (fun p => assignableTo p.1.typeOf p.2)

/-- Field contents of a newly generated struct: the resolved values for the
leading fields, zero values for the unspecified trailing fields
(reflect.New zero-initializes, then the fields 0..len-1 are Set). -/
def structFieldValues (fieldTypes : List GoType) (args : List GoValue) : List GoValue :=
  args ++ zeroValues (fieldTypes.drop args.length)

/-- ParameterResolver.resolveParameter: looks the name between the percent
signs up in the Config; an unconfigured name yields the original
placeholder value unchanged, a configured value is Set into a fresh value
of the expected type (which panics when not assignable). -/
def resolveParameter (ctx : Ctx) (parameter : GoValue) (stringParameter : String)
    (expectedType : GoType) : Res GoValue :=
  let parameterName := String.mk (stringParameter.data.drop 1).dropLast
  match lookupAssoc ctx.config parameterName with
  | none => .ok parameter
  | some configuredValue =>
    if assignableTo configuredValue.typeOf expectedType then .ok configuredValue
    else .panicked "reflect.Set: value of wrong type is not assignable to expected type"

mutual
/-- Container.get: cache hit returns the cached instance; an unregistered
id reports not-defined; otherwise the factory generates an instance, a
failure is wrapped with the while-generating context and on success the
instance is stored in the cache. -/
def getC (ctx : Ctx) : Nat → String → St → Res (Option GoValue) × St
  | 0, _, s => (.fuelOut, s)
  | fuel + 1, typeID, s =>
    match lookupAssoc s.cache typeID with
    | some cached => (.ok (some cached), s)
    | none =>
      match lookupAssoc ctx.registry typeID with
      | none => (.ok none, s)
      | some generator =>
        match generateTF ctx fuel generator s with
        | (.ok inst, s') =>
            (.ok (some inst), { s' with cache := storeAssoc s'.cache typeID inst })
        | (.err e, s') => (.err (.whileGenerating typeID e), s')
        | (.panicked m, s') => (.panicked m, s')
        | (.fuelOut, s') => (.fuelOut, s')

/-- Generate of the factory variants: the invalid sentinel always fails
with its diagnostic, an instance factory returns its stored value, a
function factory resolves its arguments (with the variadic tail collapsed
into one slice) and calls the function, and a struct factory resolves its
field values and allocates a fresh struct. -/
def generateTF (ctx : Ctx) : Nat → TypeFactory → St → Res GoValue × St
  | 0, _, s => (.fuelOut, s)
  | fuel + 1, f, s =>
    match f with
    | .invalidF e => (.err e, s)
    | .instanceF v => (.ok v, s)
    | .funcF fd fargs =>
      if fd.variadic then
        let n := fd.ins.length
        match resolveArgsIdx ctx fuel 0 ((fargs.take (n - 1)).zip (fd.ins.take (n - 1))) s with
        | (.ok fixedArgs, s₁) =>
          match resolveVariadic ctx fuel 0 (variadicElemType fd) (fargs.drop (n - 1)) s₁ with
          | (.ok elems, s₂) =>
              (callFn fd (fixedArgs ++ [.sliceV (variadicSliceType fd) elems]), s₂)
          | (.err i e, s₂) => (.err (remapArgErr (invalidReferencedTypeErrFunc fd) i e), s₂)
          | (.panicked m, s₂) => (.panicked m, s₂)
          | (.fuelOut, s₂) => (.fuelOut, s₂)
        | (.err i e, s₁) => (.err (remapArgErr (invalidReferencedTypeErrFunc fd) i e), s₁)
        | (.panicked m, s₁) => (.panicked m, s₁)
        | (.fuelOut, s₁) => (.fuelOut, s₁)
      else
        match resolveArgsIdx ctx fuel 0 (fargs.zip fd.ins) s with
        | (.ok args, s₁) => (callFn fd args, s₁)
        | (.err i e, s₁) => (.err (remapArgErr (invalidReferencedTypeErrFunc fd) i e), s₁)
        | (.panicked m, s₁) => (.panicked m, s₁)
        | (.fuelOut, s₁) => (.fuelOut, s₁)
    | .structF st fields =>
      match resolveArgsIdx ctx fuel 0 (fields.zip (structFieldTypes st)) s with
      | (.ok args, s₁) =>
        if fieldsAssignable args (structFieldTypes st) then
          (.ok (.ptrV st s₁.nextAddr),
            { s₁ with
              heap := (s₁.nextAddr,
                GoValue.struktV st (structFieldValues (structFieldTypes st) args)) :: s₁.heap,
              nextAddr := s₁.nextAddr + 1 })
        else (.panicked "reflect: Set using unassignable field value", s₁)
      | (.err i e, s₁) => (.err (remapArgErr (invalidReferencedTypeErrStruct st) i e), s₁)
      | (.panicked m, s₁) => (.panicked m, s₁)
      | (.fuelOut, s₁) => (.fuelOut, s₁)

/-- The argument-resolution loops of generateFactoryArguments (and the
fixed prefix of its variadic variant, and generateTypeFields): each raw
argument is resolved against its expected type, left to right, stopping at
the first failure. -/
def resolveArgsIdx (ctx : Ctx) : Nat → Nat → List (GoValue × GoType) → St → ArgsRes × St
  | 0, _, _, s => (.fuelOut, s)
  | _ + 1, _, [], s => (.ok [], s)
  | fuel + 1, i, (a, t) :: rest, s =>
    match resolve ctx fuel a t s with
    | (.ok v, s₁) =>
      match resolveArgsIdx ctx fuel (i + 1) rest s₁ with
      | (.ok vs, s₂) => (.ok (v :: vs), s₂)
      | (.err j e, s₂) => (.err j e, s₂)
      | (.panicked m, s₂) => (.panicked m, s₂)
      | (.fuelOut, s₂) => (.fuelOut, s₂)
    | (.err e, s₁) => (.err i e, s₁)
    | (.panicked m, s₁) => (.panicked m, s₁)
    | (.fuelOut, s₁) => (.fuelOut, s₁)

/-- The variadic tail loop of generateVariadicFactoryArguments: each tail
argument is resolved against the variadic element type and Set into the
fresh slice (the Set panics for a non-assignable element). -/
def resolveVariadic (ctx : Ctx) : Nat → Nat → GoType → List GoValue → St → ArgsRes × St
  | 0, _, _, _, s => (.fuelOut, s)
  | _ + 1, _, _, [], s => (.ok [], s)
  | fuel + 1, i, elemT, a :: rest, s =>
    match resolve ctx fuel a elemT s with
    | (.ok v, s₁) =>
      if assignableTo v.typeOf elemT then
        match resolveVariadic ctx fuel (i + 1) elemT rest s₁ with
        | (.ok vs, s₂) => (.ok (v :: vs), s₂)
        | (.err j e, s₂) => (.err j e, s₂)
        | (.panicked m, s₂) => (.panicked m, s₂)
        | (.fuelOut, s₂) => (.fuelOut, s₂)
      else (.panicked "reflect: Set using unassignable value", s₁)
    | (.err e, s₁) => (.err i e, s₁)
    | (.panicked m, s₁) => (.panicked m, s₁)
    | (.fuelOut, s₁) => (.fuelOut, s₁)

/-- ParameterResolver.Resolve: a non-string value, or a string that is
neither a placeholder nor a type reference, is returned as is; a type
reference is resolved through the Container (optional references degrade to
the zero value, func references look the method up on the resolved
instance, plain references are checked for assignability); a parameter
placeholder is resolved against the Config. -/
def resolve (ctx : Ctx) : Nat → GoValue → GoType → St → Res GoValue × St
  | 0, _, _, s => (.fuelOut, s)
  | fuel + 1, parameter, expectedType, s =>
    match parameter with
    | .strV sp =>
      if !IsParameterOrTypeReference sp then (.ok (.strV sp), s)
      else if IsTypeReference sp then
        let t := NewTypeID sp
        match getC ctx fuel t.ID s with
        | (.ok (some inst), s₁) =>
          if t.IsFuncReference then
            match ctx.methodEnv inst t.FuncReferenceMethod with
            | some m => (.ok m, s₁)
            | none =>
                (.err (.typeRefErr t.ID ("the referenced method \"" ++ t.Raw ++
                  "\" does not exist or is not exported")), s₁)
          else if assignableTo inst.typeOf expectedType then (.ok inst, s₁)
          else
            (.err (.typeRefErr t.ID ("the referenced type \"" ++ t.Raw ++
              "\" is not assignable to the expected type")), s₁)
        | (.ok none, s₁) =>
          if t.IsOptional then (.ok (zeroValue expectedType), s₁)
          else
            (.err (.unknownTypeRef t.ID ("the referenced type \"@" ++ t.ID ++
              "\" has not been defined")), s₁)
        | (.err e, s₁) => (.err e, s₁)
        | (.panicked m, s₁) => (.panicked m, s₁)
        | (.fuelOut, s₁) => (.fuelOut, s₁)
      else
        (resolveParameter ctx (.strV sp) sp expectedType, s)
    | v => (.ok v, s)
end

/-- Container.Get: wraps Container.get, turning the not-defined case into
an unknown-type-reference error. -/
def containerGet (ctx : Ctx) (fuel : Nat) (typeID : String) (s : St) : Res GoValue × St :=
  match getC ctx fuel typeID s with
  | (.ok (some inst), s') => (.ok inst, s')
  | (.ok none, s') => (.err (.unknownTypeRef typeID "no such type has been defined"), s')
  | (.err e, s') => (.err e, s')
  | (.panicked m, s') => (.panicked m, s')
  | (.fuelOut, s') => (.fuelOut, s')

/-- TypeReferencesConstraint.typeReferenceArguments: the string arguments
that are type references, with the leading at sign stripped. -/
def typeReferenceArguments (allArguments : List GoValue) : List String :=
  allArguments.filterMap (fun argument =>
    match argument with
    | .strV s => if IsTypeReference s then some (s.drop 1) else none
    | _ => none)

/-- Errors of the TypeReferencesConstraint validator. -/
inductive VErr where
  | unknownRef (t : String) (referenced : String)
  | circularDep (referenced : String) (referencedBy : String)
  deriving DecidableEq, Repr

/-- Rendered validator error messages (fmt format strings of the Go code). -/
def vErrMessage : VErr → String
  | .unknownRef t r => "type \"" ++ t ++ "\" references unknown type \"" ++ r ++ "\""
  | .circularDep r b =>
      "detected circular dependency for type \"" ++ r ++ "\" (referenced by \"" ++ b ++ "\")"

/-- Result of a validator walk: success carries the current mutable
circularDependencyCheckMap / checkedTypes set (a StringSet in Go). -/
inductive VRes where
  | ok (m : Finset String)
  | err (e : VErr)
  | fuelOut
  deriving DecidableEq

/-- Loop body of checkCircularDependency, abstracted over the nested walk
`next`: an undefined reference returns early with no error (the Go code
returns nil there, abandoning the remaining references); a reference
already in the check map is a circular dependency; otherwise the current
id is added to the map and the walk descends. -/
def ccdLoop (reg : List (String × TypeFactory))
    (next : TypeFactory → String → Finset String → VRes) :
    List String → String → Finset String → VRes
  | [], _, m => .ok m
  | r :: rest, typeID, m =>
    match lookupAssoc reg (NewTypeID r).ID with
    | none => .ok m
    | some referencedType =>
      if r ∈ m then .err (.circularDep r typeID)
      else
        match next referencedType r (insert typeID m) with
        | .ok m' => ccdLoop reg next rest typeID m'
        | .err e => .err e
        | .fuelOut => .fuelOut

/-- TypeReferencesConstraint.checkCircularDependency: walks the type
references of one factory.  The Go recursion is bounded only by the graph
shape; the model spends one unit of fuel per nesting level. -/
def checkCircularDependency (reg : List (String × TypeFactory)) :
    Nat → TypeFactory → String → Finset String → VRes
  | 0, _, _, _ => .fuelOut
  | fuel + 1, typeFactory, typeID, m =>
      ccdLoop reg (checkCircularDependency reg fuel)
        (typeReferenceArguments typeFactory.arguments) typeID m

/-- TypeReferencesConstraint.validateTypeReferences: for each type
reference of the factory registered under `typeID`, skip it when already
checked, fail when it is undefined, and otherwise run the circular
dependency walk with a fresh check map seeded with `typeID`. -/
def vtrLoop (reg : List (String × TypeFactory)) (fuel : Nat) (typeID : String) :
    List String → Finset String → VRes
  | [], checked => .ok checked
  | r :: rest, checked =>
    if r ∈ checked then vtrLoop reg fuel typeID rest checked
    else
      match lookupAssoc reg (NewTypeID r).ID with
      | none => .err (.unknownRef (NewTypeID typeID).ID (NewTypeID r).ID)
      | some referencedTypeFactory =>
        match checkCircularDependency reg fuel referencedTypeFactory r (insert typeID ∅) with
        | .ok _ => vtrLoop reg fuel typeID rest (insert r checked)
        | .err e => .err e
        | .fuelOut => .fuelOut

/-- TypeReferencesConstraint.Validate: runs validateTypeReferences for
every registered (id, factory) pair, with a fresh checkedTypes set per
entry. -/
def validateLoop (reg : List (String × TypeFactory)) (fuel : Nat) :
    List (String × TypeFactory) → VRes
  | [] => .ok ∅
  | (typeID, typeFactory) :: rest =>
    match vtrLoop reg fuel typeID (typeReferenceArguments typeFactory.arguments) ∅ with
    | .ok _ => validateLoop reg fuel rest
    | .err e => .err e
    | .fuelOut => .fuelOut

/-- All type-reference strings occurring in any registered factory: the
finite universe the circular-dependency walk can move in. -/
def refUniverse (reg : List (String × TypeFactory)) : Finset String :=
  reg.foldr (fun e acc => (typeReferenceArguments e.2.arguments).foldr insert acc) ∅

/-- Fuel that always suffices for the circular-dependency walk (proved
below): two levels per reference string plus slack. -/
def validateFuel (reg : List (String × TypeFactory)) : Nat :=
  2 * (refUniverse reg).card + 2

/-- TypeReferencesConstraint.Validate over a registry, with the
always-sufficient fuel. -/
def Validate (reg : List (String × TypeFactory)) : VRes :=
  validateLoop reg (validateFuel reg) reg

/-- Decreasing measure of the circular-dependency walk: twice the number of
reference strings not yet in the check map (nor equal to the current id),
plus one while the current id is itself outside the map. -/
def nu (U : Finset String) (tid : String) (m : Finset String) : Nat :=
  2 * (U \ insert tid m).card + (if tid ∈ m then 0 else 1)

/-- A factory is registered when some id maps to it. -/
def registered (reg : List (String × TypeFactory)) (f : TypeFactory) : Prop :=
  ∃ k, lookupAssoc reg k = some f

/-- A struct factory whose raw arguments are exactly the given reference
strings: the smallest factory shape with a prescribed reference list, used
for the concrete validator registries. -/
def refFactory (refs : List String) : TypeFactory :=
  .structF (.strukt "S" (refs.map (fun _ => GoType.str))) (refs.map GoValue.strV)

/-- Registry with a two-cycle: A references B and B references A. -/
def cycleReg : List (String × TypeFactory) :=
  [("A", refFactory ["@B"]), ("B", refFactory ["@A"])]

/-- Acyclic chain registry: A references B, B references C, C has no
references. -/
def chainReg : List (String × TypeFactory) :=
  [("A", refFactory ["@B"]), ("B", refFactory ["@C"]), ("C", refFactory [])]

/-- Registry with a self-reference: A references A. -/
def selfReg : List (String × TypeFactory) := [("A", refFactory ["@A"])]

/-- Diamond-shaped acyclic registry: A references B and C, both of which
reference the shared leaf D. -/
def diamondReg : List (String × TypeFactory) :=
  [("A", refFactory ["@B", "@C"]), ("B", refFactory ["@D"]),
   ("C", refFactory ["@D"]), ("D", refFactory [])]

/-- Run a sequence of Container.Get calls (each with its own fuel),
keeping only the final state: the observable history of an application
talking to one container. -/
def runGets (ctx : Ctx) : List (Nat × String) → St → St
  | [], s => s
  | (fuel, typeID) :: rest, s => runGets ctx rest (containerGet ctx fuel typeID s).2

/-! ## Concrete containers and registries used as witnesses -/

/-- A one-parameter factory function returning a string. -/
def exLoggerFD : FuncDef :=
  { ins := [.str], variadic := false, outs := [.str],
    impl := fun args => match args with | [.strV s] => .strV ("logger " ++ s) | _ => .strV "",
    name := "NewLogger" }

/-- A container with one registered function factory whose argument is a
configured parameter placeholder; the config also holds an int value under
"answer". -/
def exCtx : Ctx :=
  { registry := [("logger", NewType exLoggerFD [.strV "%greeting%"])],
    config := [("greeting", .strV "hello"), ("answer", .intV 42)],
    methodEnv := fun _ _ => none }

/-- The empty starting state of a fresh container. -/
def st0 : St := { cache := [], heap := [], nextAddr := 0 }

/-- A variadic factory function with one fixed int parameter and a variadic
string tail: the Go shape func(a int, rest ...string) string. -/
def exVariadicFD : FuncDef :=
  { ins := [.int, .slice .str], variadic := true, outs := [.str],
    impl := fun args =>
      match args with
      | [.intV n, .sliceV _ es] => .strV (toString n ++ "#" ++ toString es.length)
      | _ => .strV "bad",
    name := "fVariadic" }

/-- A factory function taking a single int parameter. -/
def exIntFD : FuncDef :=
  { ins := [.int], variadic := false, outs := [.str],
    impl := fun _ => .strV "i", name := "TakesInt" }

/-- A factory function whose parameter is the struct type A: a kind-matching
but non-assignable literal of struct type B passes registration and fails
only at call time. -/
def exStructParamFD : FuncDef :=
  { ins := [.strukt "A" []], variadic := false, outs := [.str],
    impl := fun _ => .strV "made", name := "TakesA" }

/-- A container whose only registration is an invalid descriptor carrying
the diagnostic "boom": its Generate always fails. -/
def exBadCtx : Ctx :=
  { registry := [("bad", newInvalidType (.generic "boom"))],
    config := [], methodEnv := fun _ _ => none }

/-! ## State evolution: the cache is append-only and addresses are fresh -/

/-- How any container/resolver step may change the state: every cache entry
present before is still present with the same value afterwards (the cache
is only ever written on a read miss), and the allocation counter never
decreases. -/
def StepOK (s s' : St) : Prop :=
  (∀ id v, lookupAssoc s.cache id = some v → lookupAssoc s'.cache id = some v) ∧
  s.nextAddr ≤ s'.nextAddr

/-! ## Lemmas about the association-list map model -/

theorem lookupAssoc_storeAssoc_self {α : Type} (l : List (String × α)) (key : String) (v : α) :
    lookupAssoc (storeAssoc l key v) key = some v := by
  induction l with
  | nil => simp [storeAssoc, lookupAssoc]
  | cons hd tl ih =>
    obtain ⟨k, w⟩ := hd
    by_cases hk : k = key <;> simp [storeAssoc, lookupAssoc, hk, ih]

theorem lookupAssoc_storeAssoc_ne {α : Type} (l : List (String × α)) (k key : String) (v : α)
    (h : k ≠ key) : lookupAssoc (storeAssoc l key v) k = lookupAssoc l k := by
  induction l with
  | nil => simp [storeAssoc, lookupAssoc, h, Ne.symm h]
  | cons hd tl ih =>
    obtain ⟨k', w⟩ := hd
    by_cases hk : k' = key
    · subst hk
      simp [storeAssoc, lookupAssoc, Ne.symm h]
    · simp only [storeAssoc, if_neg hk]
      by_cases hk2 : k' = k <;> simp [lookupAssoc, hk2, ih]

theorem StepOK.rfl (s : St) : StepOK s s := ⟨fun _ _ h => h, Nat.le_refl _⟩

theorem StepOK.trans {s t u : St} (h₁ : StepOK s t) (h₂ : StepOK t u) : StepOK s u :=
  ⟨fun id v hv => h₂.1 id v (h₁.1 id v hv), Nat.le_trans h₁.2 h₂.2⟩

/-- Every operation of the container/resolver family evolves the state
according to `StepOK`: existing cache entries survive unchanged and the
allocation counter is monotone.  Joint induction over the fuel for the five
mutually recursive functions. -/
theorem stepOK_all (ctx : Ctx) :
    ∀ fuel : Nat,
      (∀ b s, StepOK s (getC ctx fuel b s).2) ∧
      (∀ f s, StepOK s (generateTF ctx fuel f s).2) ∧
      (∀ i args s, StepOK s (resolveArgsIdx ctx fuel i args s).2) ∧
      (∀ i t vs s, StepOK s (resolveVariadic ctx fuel i t vs s).2) ∧
      (∀ p t s, StepOK s (resolve ctx fuel p t s).2) := by
  intro fuel
  induction fuel with
  | zero =>
    refine ⟨?_, ?_, ?_, ?_, ?_⟩ <;> intros <;>
      simp only [getC, generateTF, resolveArgsIdx, resolveVariadic, resolve] <;>
      exact StepOK.rfl _
  | succ fuel ih =>
    obtain ⟨ihG, ihT, ihA, ihV, ihR⟩ := ih
    refine ⟨?_, ?_, ?_, ?_, ?_⟩
    · -- getC
      intro b s
      simp only [getC]
      cases hc : lookupAssoc s.cache b with
      | some cached => exact StepOK.rfl s
      | none =>
        dsimp only
        cases hr : lookupAssoc ctx.registry b with
        | none => exact StepOK.rfl s
        | some g =>
          dsimp only
          rcases hg : generateTF ctx fuel g s with ⟨r, s'⟩
          have hstep : StepOK s s' := by
            have h := ihT g s; rw [hg] at h; exact h
          cases r with
          | ok inst =>
            refine ⟨?_, hstep.2⟩
            intro id v hv
            have hne : id ≠ b := by
              intro h; subst h; rw [hv] at hc; cases hc
            show lookupAssoc (storeAssoc s'.cache b inst) id = some v
            rw [lookupAssoc_storeAssoc_ne _ _ _ _ hne]
            exact hstep.1 id v hv
          | err e => exact hstep
          | panicked m => exact hstep
          | fuelOut => exact hstep
    · -- generateTF
      intro f s
      cases f with
      | invalidF e => exact StepOK.rfl s
      | instanceF v => exact StepOK.rfl s
      | funcF fd fargs =>
        simp only [generateTF]
        cases hv : fd.variadic with
        | false =>
          rcases ha : resolveArgsIdx ctx fuel 0 (fargs.zip fd.ins) s with ⟨ra, s₁⟩
          have h1 : StepOK s s₁ := by
            have h := ihA 0 (fargs.zip fd.ins) s; rw [ha] at h; exact h
          cases ra <;> exact h1
        | true =>
          rcases ha : resolveArgsIdx ctx fuel 0
              ((fargs.take (fd.ins.length - 1)).zip (fd.ins.take (fd.ins.length - 1))) s
            with ⟨ra, s₁⟩
          have h1 : StepOK s s₁ := by
            have h := ihA 0 ((fargs.take (fd.ins.length - 1)).zip
              (fd.ins.take (fd.ins.length - 1))) s
            rw [ha] at h; exact h
          cases ra with
          | ok fixedArgs =>
            dsimp only
            rcases hb : resolveVariadic ctx fuel 0 (variadicElemType fd)
                (fargs.drop (fd.ins.length - 1)) s₁ with ⟨rb, s₂⟩
            have h2 : StepOK s₁ s₂ := by
              have h := ihV 0 (variadicElemType fd) (fargs.drop (fd.ins.length - 1)) s₁
              rw [hb] at h; exact h
            cases rb <;> exact h1.trans h2
          | err i e => exact h1
          | panicked m => exact h1
          | fuelOut => exact h1
      | structF st fields =>
        simp only [generateTF]
        rcases ha : resolveArgsIdx ctx fuel 0 (fields.zip (structFieldTypes st)) s with ⟨ra, s₁⟩
        have h1 : StepOK s s₁ := by
          have h := ihA 0 (fields.zip (structFieldTypes st)) s; rw [ha] at h; exact h
        cases ra with
        | ok args =>
          dsimp only
          cases hf : fieldsAssignable args (structFieldTypes st) with
          | false => exact h1
          | true => exact ⟨h1.1, Nat.le_trans h1.2 (Nat.le_succ _)⟩
        | err i e => exact h1
        | panicked m => exact h1
        | fuelOut => exact h1
    · -- resolveArgsIdx
      intro i args s
      cases args with
      | nil => exact StepOK.rfl s
      | cons at0 rest =>
        obtain ⟨a, t⟩ := at0
        simp only [resolveArgsIdx]
        rcases ha : resolve ctx fuel a t s with ⟨ra, s₁⟩
        have h1 : StepOK s s₁ := by
          have h := ihR a t s; rw [ha] at h; exact h
        cases ra with
        | ok v =>
          dsimp only
          rcases hb : resolveArgsIdx ctx fuel (i + 1) rest s₁ with ⟨rb, s₂⟩
          have h2 : StepOK s₁ s₂ := by
            have h := ihA (i + 1) rest s₁; rw [hb] at h; exact h
          cases rb <;> exact h1.trans h2
        | err e => exact h1
        | panicked m => exact h1
        | fuelOut => exact h1
    · -- resolveVariadic
      intro i t vs s
      cases vs with
      | nil => exact StepOK.rfl s
      | cons a rest =>
        simp only [resolveVariadic]
        rcases ha : resolve ctx fuel a t s with ⟨ra, s₁⟩
        have h1 : StepOK s s₁ := by
          have h := ihR a t s; rw [ha] at h; exact h
        cases ra with
        | ok v =>
          dsimp only
          cases hset : assignableTo v.typeOf t with
          | false => exact h1
          | true =>
            rcases hb : resolveVariadic ctx fuel (i + 1) t rest s₁ with ⟨rb, s₂⟩
            have h2 : StepOK s₁ s₂ := by
              have h := ihV (i + 1) t rest s₁; rw [hb] at h; exact h
            cases rb <;> exact h1.trans h2
        | err e => exact h1
        | panicked m => exact h1
        | fuelOut => exact h1
    · -- resolve
      intro p t s
      cases p with
      | strV sp =>
        simp only [resolve]
        cases hpr : IsParameterOrTypeReference sp with
        | false => exact StepOK.rfl s
        | true =>
          cases htr : IsTypeReference sp with
          | false => exact StepOK.rfl s
          | true =>
            rcases hg : getC ctx fuel (NewTypeID sp).ID s with ⟨rg, s₁⟩
            have h1 : StepOK s s₁ := by
              have h := ihG (NewTypeID sp).ID s; rw [hg] at h; exact h
            cases rg with
            | ok inst? =>
              cases inst? with
              | some inst =>
                dsimp only
                cases (NewTypeID sp).IsFuncReference
                · cases assignableTo inst.typeOf t <;> exact h1
                · cases ctx.methodEnv inst (NewTypeID sp).FuncReferenceMethod <;> exact h1
              | none =>
                dsimp only
                cases (NewTypeID sp).IsOptional <;> exact h1
            | err e => exact h1
            | panicked m => exact h1
            | fuelOut => exact h1
      | intV n => exact StepOK.rfl s
      | boolV b => exact StepOK.rfl s
      | struktV t0 fs => exact StepOK.rfl s
      | ptrV e a => exact StepOK.rfl s
      | funcV t0 fid => exact StepOK.rfl s
      | sliceV t0 es => exact StepOK.rfl s
      | nilV t0 => exact StepOK.rfl s

theorem getC_stepOK (ctx : Ctx) (fuel : Nat) (b : String) (s : St) :
    StepOK s (getC ctx fuel b s).2 := (stepOK_all ctx fuel).1 b s

theorem generateTF_stepOK (ctx : Ctx) (fuel : Nat) (f : TypeFactory) (s : St) :
    StepOK s (generateTF ctx fuel f s).2 := (stepOK_all ctx fuel).2.1 f s

theorem containerGet_stepOK (ctx : Ctx) (fuel : Nat) (typeID : String) (s : St) :
    StepOK s (containerGet ctx fuel typeID s).2 := by
  unfold containerGet
  rcases hg : getC ctx fuel typeID s with ⟨r, s'⟩
  have h : StepOK s s' := by have h := getC_stepOK ctx fuel typeID s; rw [hg] at h; exact h
  rcases r with (_ | _) | _ | _ | _ <;> exact h

theorem runGets_stepOK (ctx : Ctx) (calls : List (Nat × String)) (s : St) :
    StepOK s (runGets ctx calls s) := by
  induction calls generalizing s with
  | nil => exact StepOK.rfl s
  | cons c rest ih =>
    obtain ⟨fuel, typeID⟩ := c
    exact (containerGet_stepOK ctx fuel typeID s).trans (ih _)

/-- A cache hit returns the cached instance and leaves the state untouched. -/
theorem getC_hit (ctx : Ctx) (fuel : Nat) (typeID : String) (s : St) (v : GoValue)
    (h : lookupAssoc s.cache typeID = some v) :
    getC ctx (fuel + 1) typeID s = (.ok (some v), s) := by
  simp only [getC, h]

/-- A successful get leaves the instance in the cache under its id. -/
theorem getC_success_caches (ctx : Ctx) (fuel : Nat) (typeID : String) (s : St)
    (v : GoValue) (s' : St) (h : getC ctx fuel typeID s = (.ok (some v), s')) :
    lookupAssoc s'.cache typeID = some v := by
  cases fuel with
  | zero => simp only [getC] at h; cases h
  | succ fuel =>
    simp only [getC] at h
    cases hc : lookupAssoc s.cache typeID with
    | some cached =>
      rw [hc] at h
      injection h with h1 h2
      injection h1 with h1
      injection h1 with h1
      subst h1; subst h2
      exact hc
    | none =>
      rw [hc] at h
      dsimp only at h
      cases hr : lookupAssoc ctx.registry typeID with
      | none => rw [hr] at h; cases h
      | some g =>
        rw [hr] at h
        dsimp only at h
        rcases hg : generateTF ctx fuel g s with ⟨r, s₁⟩
        rw [hg] at h
        cases r with
        | ok inst =>
          injection h with h1 h2
          injection h1 with h1
          injection h1 with h1
          subst h1
          subst h2
          exact lookupAssoc_storeAssoc_self _ _ _
        | err e => cases h
        | panicked m => cases h
        | fuelOut => cases h

/-! ## Claim C1: singleton semantics of Container.Get -/

/-- C1: for every Container and every typeID, if a call to Get(typeID)
succeeds and returns instance v, then every later call to Get(typeID) on
that same Container — after any interleaved sequence of other Get calls —
succeeds and returns the identical instance v: the cache entry, once
populated, is never replaced by subsequent Get calls. -/
theorem claim_C1_singleton_get (ctx : Ctx) (fuel : Nat) (typeID : String) (s s₁ : St)
    (v : GoValue) (h : containerGet ctx fuel typeID s = (.ok v, s₁))
    (calls : List (Nat × String)) (fuel₂ : Nat) :
    containerGet ctx (fuel₂ + 1) typeID (runGets ctx calls s₁) =
      (.ok v, runGets ctx calls s₁) := by
  have hg : getC ctx fuel typeID s = (.ok (some v), s₁) := by
    unfold containerGet at h
    rcases hg : getC ctx fuel typeID s with ⟨r, s'⟩
    rw [hg] at h
    cases r with
    | ok o =>
      cases o with
      | some w =>
        injection h with h1 h2
        injection h1 with h1
        subst h1; subst h2
        rfl
      | none => cases h
    | err e => cases h
    | panicked m => cases h
    | fuelOut => cases h
  have hcache : lookupAssoc s₁.cache typeID = some v :=
    getC_success_caches ctx fuel typeID s v s₁ hg
  have hpres : lookupAssoc (runGets ctx calls s₁).cache typeID = some v :=
    (runGets_stepOK ctx calls s₁).1 typeID v hcache
  unfold containerGet
  rw [getC_hit ctx fuel₂ typeID _ v hpres]

/-- Witness for C1 at a concrete container: the first Get builds the
instance, and a later Get after interleaved calls returns the same one. -/
theorem claim_C1_singleton_get_witness :
    containerGet exCtx 10 "logger" st0 =
      (.ok (.strV "logger hello"),
        { cache := [("logger", .strV "logger hello")], heap := [], nextAddr := 0 }) ∧
    containerGet exCtx (3 + 1) "logger"
        (runGets exCtx [(5, "logger"), (2, "nope")]
          { cache := [("logger", .strV "logger hello")], heap := [], nextAddr := 0 }) =
      (.ok (.strV "logger hello"),
        runGets exCtx [(5, "logger"), (2, "nope")]
          { cache := [("logger", .strV "logger hello")], heap := [], nextAddr := 0 }) :=
  ⟨rfl, claim_C1_singleton_get exCtx 10 "logger" st0
    { cache := [("logger", .strV "logger hello")], heap := [], nextAddr := 0 }
    (.strV "logger hello") rfl [(5, "logger"), (2, "nope")] 3⟩

/-! ## Claim C4: optional references to missing types yield zero values -/

/-- C4: for every expected type T and every optional type reference whose
id is not registered (and not cached), Resolve returns the zero value of T
and does not return an error. -/
theorem claim_C4_optional_missing_zero (ctx : Ctx) (fuel : Nat) (sp : String) (T : GoType)
    (s : St) (htr : IsTypeReference sp = true) (hopt : (NewTypeID sp).IsOptional = true)
    (hreg : lookupAssoc ctx.registry (NewTypeID sp).ID = none)
    (hcache : lookupAssoc s.cache (NewTypeID sp).ID = none) :
    resolve ctx (fuel + 2) (.strV sp) T s = (.ok (zeroValue T), s) := by
  have hp : IsParameterOrTypeReference sp = true := by
    unfold IsParameterOrTypeReference; rw [htr]; simp
  have hget : getC ctx (fuel + 1) (NewTypeID sp).ID s = (.ok none, s) := by
    simp only [getC, hcache, hreg]
  simp only [resolve, hp, htr, Bool.not_true, Bool.false_eq_true, if_false, if_true, hget, hopt]

/-- Witness for C4: resolving the optional reference to the unregistered
id "missing" against the int type yields the int zero value, no error. -/
theorem claim_C4_optional_missing_zero_witness :
    resolve exCtx (3 + 2) (.strV "@?missing") .int st0 = (.ok (zeroValue .int), st0) :=
  claim_C4_optional_missing_zero exCtx 3 "@?missing" .int st0 rfl rfl rfl rfl

/-! ## Claim C5: mandatory references to missing types fail -/

/-- C5: a mandatory type reference to an unregistered id makes Resolve fail
with an unknown-type-reference error naming the id, and Container.Get on an
unregistered id fails with the not-defined error rather than returning a
value. -/
theorem claim_C5_mandatory_missing_fails (ctx : Ctx) (fuel : Nat) (sp : String) (T : GoType)
    (s : St) (htr : IsTypeReference sp = true) (hopt : (NewTypeID sp).IsOptional = false)
    (hreg : lookupAssoc ctx.registry (NewTypeID sp).ID = none)
    (hcache : lookupAssoc s.cache (NewTypeID sp).ID = none) :
    resolve ctx (fuel + 2) (.strV sp) T s =
      (.err (.unknownTypeRef (NewTypeID sp).ID
        ("the referenced type \"@" ++ (NewTypeID sp).ID ++ "\" has not been defined")), s) ∧
    containerGet ctx (fuel + 1) (NewTypeID sp).ID s =
      (.err (.unknownTypeRef (NewTypeID sp).ID "no such type has been defined"), s) := by
  have hp : IsParameterOrTypeReference sp = true := by
    unfold IsParameterOrTypeReference; rw [htr]; simp
  have hget : getC ctx (fuel + 1) (NewTypeID sp).ID s = (.ok none, s) := by
    simp only [getC, hcache, hreg]
  constructor
  · simp only [resolve, hp, htr, Bool.not_true, Bool.false_eq_true, if_false, if_true, hget,
      hopt]
  · simp only [containerGet, hget]

/-- Witness for C5: the mandatory reference to the unregistered id
"missing" fails in the resolver and in Container.Get. -/
theorem claim_C5_mandatory_missing_fails_witness :
    resolve exCtx (3 + 2) (.strV "@missing") .int st0 =
      (.err (.unknownTypeRef (NewTypeID "@missing").ID
        ("the referenced type \"@" ++ (NewTypeID "@missing").ID ++ "\" has not been defined")),
        st0) ∧
    containerGet exCtx (3 + 1) (NewTypeID "@missing").ID st0 =
      (.err (.unknownTypeRef (NewTypeID "@missing").ID "no such type has been defined"), st0) :=
  claim_C5_mandatory_missing_fails exCtx 3 "@missing" .int st0 rfl rfl rfl rfl

/-! ## Claim C3: parameter placeholders -/

/-- Counterexample to C3 as stated: with "answer" configured to the int 42
and an expected type of string, Resolve neither returns the configured
value nor an error — the underlying reflect.Set panics on the
non-assignable value. -/
theorem claim_C3_counterexample :
    resolve exCtx 5 (.strV "%answer%") .str st0 =
      (.panicked "reflect.Set: value of wrong type is not assignable to expected type", st0) :=
  rfl

/-- C3 as amended: an unconfigured placeholder resolves to the original
placeholder text as a string value with no error; a configured placeholder
resolves to the configured value when that value is assignable to the
expected type, and panics (rather than returning a value or an error) when
it is not. -/
theorem claim_C3_parameter_placeholder (ctx : Ctx) (fuel : Nat) (sp : String) (T : GoType)
    (s : St) (hp : IsParameter sp = true) (htr : IsTypeReference sp = false) :
    (lookupAssoc ctx.config (String.mk (sp.data.drop 1).dropLast) = none →
      resolve ctx (fuel + 1) (.strV sp) T s = (.ok (.strV sp), s)) ∧
    (∀ v, lookupAssoc ctx.config (String.mk (sp.data.drop 1).dropLast) = some v →
      assignableTo v.typeOf T = true →
      resolve ctx (fuel + 1) (.strV sp) T s = (.ok v, s)) ∧
    (∀ v, lookupAssoc ctx.config (String.mk (sp.data.drop 1).dropLast) = some v →
      assignableTo v.typeOf T = false →
      resolve ctx (fuel + 1) (.strV sp) T s =
        (.panicked "reflect.Set: value of wrong type is not assignable to expected type", s)) := by
  have hpt : IsParameterOrTypeReference sp = true := by
    unfold IsParameterOrTypeReference; rw [hp]; simp
  refine ⟨?_, ?_, ?_⟩
  · intro hcfg
    simp only [resolve, hpt, htr, Bool.not_true, Bool.false_eq_true, if_false,
      resolveParameter, hcfg]
  · intro v hcfg hassign
    simp only [resolve, hpt, htr, Bool.not_true, Bool.false_eq_true, if_false,
      resolveParameter, hcfg, hassign, if_true]
  · intro v hcfg hassign
    simp only [resolve, hpt, htr, Bool.not_true, Bool.false_eq_true, if_false,
      resolveParameter, hcfg, hassign]

/-- Witness for the amended C3 at a concrete container: "%greeting%" is
configured to the assignable string "hello", "%nope%" is unconfigured. -/
theorem claim_C3_parameter_placeholder_witness :
    (resolve exCtx (4 + 1) (.strV "%nope%") .str st0 = (.ok (.strV "%nope%"), st0)) ∧
    (resolve exCtx (4 + 1) (.strV "%greeting%") .str st0 = (.ok (.strV "hello"), st0)) :=
  ⟨(claim_C3_parameter_placeholder exCtx 4 "%nope%" .str st0 rfl rfl).1 rfl,
   (claim_C3_parameter_placeholder exCtx 4 "%greeting%" .str st0 rfl rfl).2.1
     (.strV "hello") rfl rfl⟩

/-! ## Claims C2 and C9: registration-time checks of NewType -/

theorem buildFactoryCallArgumentsGo_ok_val (t : FuncDef) :
    ∀ (ps : List GoValue) (i : Nat) (args : List GoValue),
      buildFactoryCallArgumentsGo t i ps = .ok args → args = ps := by
  intro ps
  induction ps with
  | nil =>
    intro i args h
    simp only [buildFactoryCallArgumentsGo] at h
    injection h with h
    exact h.symm
  | cons a rest ih =>
    intro i args h
    simp only [buildFactoryCallArgumentsGo] at h
    cases hc : argRegistrationOk t i a with
    | false => rw [hc] at h; simp at h
    | true =>
      rw [hc] at h
      rcases hb : buildFactoryCallArgumentsGo t (i + 1) rest with e | bargs <;>
        rw [hb] at h <;> simp at h
      rw [ih (i + 1) bargs hb] at h
      exact h.symm

theorem buildFactoryCallArgumentsGo_ok_iff (t : FuncDef) :
    ∀ (ps : List GoValue) (i : Nat),
      (∃ args, buildFactoryCallArgumentsGo t i ps = .ok args) ↔
        ∀ j, j < ps.length → argRegistrationOk t (i + j) (ps.getD j (.strV "")) = true := by
  intro ps
  induction ps with
  | nil =>
    intro i
    constructor
    · intro _ j hj; cases hj
    · intro _; exact ⟨[], rfl⟩
  | cons a rest ih =>
    intro i
    simp only [buildFactoryCallArgumentsGo]
    cases hc : argRegistrationOk t i a with
    | false =>
      constructor
      · intro ⟨args, h⟩; simp at h
      · intro hall
        have h0 := hall 0 (Nat.succ_pos _)
        rw [Nat.add_zero, List.getD_cons_zero, hc] at h0
        cases h0
    | true =>
      constructor
      · intro ⟨args, h⟩ j hj
        rcases hb : buildFactoryCallArgumentsGo t (i + 1) rest with e | bargs
        · rw [hb] at h; simp at h
        · cases j with
          | zero => rw [Nat.add_zero, List.getD_cons_zero]; exact hc
          | succ j' =>
            have hrest := (ih (i + 1)).1 ⟨bargs, hb⟩ j' (Nat.lt_of_succ_lt_succ hj)
            have heq : i + 1 + j' = i + (j' + 1) := by omega
            rw [heq] at hrest
            rw [List.getD_cons_succ]
            exact hrest
      · intro hall
        have hrest : ∃ args, buildFactoryCallArgumentsGo t (i + 1) rest = .ok args := by
          refine (ih (i + 1)).2 ?_
          intro j hj
          have hj1 := hall (j + 1) (Nat.succ_lt_succ hj)
          have heq : i + (j + 1) = i + 1 + j := by omega
          rw [heq, List.getD_cons_succ] at hj1
          exact hj1
        obtain ⟨bargs, hb⟩ := hrest
        rw [hb]
        exact ⟨a :: bargs, by simp⟩

/-- Validity of NewType for a factory function with a well-shaped return:
the descriptor is valid iff the argument count fits (at least NumIn when
variadic, exactly NumIn otherwise) and every argument passes the
per-argument registration kind check. -/
theorem NewType_isValid_iff (fd : FuncDef) (ps : List GoValue)
    (hout : fd.outs.length = 1)
    (hchan : (fd.outs.getD 0 .iface).kind ≠ .chanK)
    (hraw : (fd.outs.getD 0 .iface).kind ≠ .rawPointerK) :
    IsValid (NewType fd ps) = true ↔
      ((if fd.variadic = true then fd.ins.length ≤ ps.length
        else fd.ins.length = ps.length) ∧
       ∀ j, j < ps.length → argRegistrationOk fd j (ps.getD j (.strV "")) = true) := by
  unfold NewType newTypeFromFactoryFunction
  rw [if_neg (by simp [hout])]
  rw [if_neg (by simp only [Bool.or_eq_true, decide_eq_true_eq, not_or]; exact ⟨hchan, hraw⟩)]
  have hbuild := buildFactoryCallArgumentsGo_ok_iff fd ps 0
  have hzero : ∀ j, 0 + j = j := fun j => Nat.zero_add j
  cases hv : fd.variadic with
  | true =>
    simp only [if_true]
    by_cases hlen : fd.ins.length ≤ ps.length
    · rw [if_neg (by simp only [Bool.true_and, decide_eq_true_eq]; omega)]
      rw [if_neg (by simp)]
      rcases hb : buildFactoryCallArguments fd ps with e | args
      · simp only [newInvalidType, IsValid]
        constructor
        · intro h; cases h
        · intro ⟨_, hall⟩
          obtain ⟨args, hok⟩ := hbuild.2 (fun j hj => by rw [hzero j]; exact hall j hj)
          rw [show buildFactoryCallArguments fd ps = buildFactoryCallArgumentsGo fd 0 ps
            from rfl] at hb
          rw [hok] at hb; cases hb
      · simp only [IsValid, true_iff]
        refine ⟨hlen, ?_⟩
        intro j hj
        have := hbuild.1 ⟨args, hb⟩ j hj
        rw [hzero j] at this
        exact this
    · rw [if_pos (by simp only [Bool.true_and, decide_eq_true_eq]; omega)]
      simp only [newInvalidType, IsValid]
      constructor
      · intro h; cases h
      · intro ⟨hc, _⟩; exact absurd hc hlen
  | false =>
    simp only [Bool.false_and, Bool.not_false, Bool.true_and, Bool.false_eq_true, if_false]
    by_cases hlen : fd.ins.length = ps.length
    · rw [if_neg (by simp only [decide_eq_true_eq]; omega)]
      rcases hb : buildFactoryCallArguments fd ps with e | args
      · simp only [newInvalidType, IsValid]
        constructor
        · intro h; cases h
        · intro ⟨_, hall⟩
          obtain ⟨args, hok⟩ := hbuild.2 (fun j hj => by rw [hzero j]; exact hall j hj)
          rw [show buildFactoryCallArguments fd ps = buildFactoryCallArgumentsGo fd 0 ps
            from rfl] at hb
          rw [hok] at hb; cases hb
      · simp only [IsValid, true_iff]
        refine ⟨hlen, ?_⟩
        intro j hj
        have := hbuild.1 ⟨args, hb⟩ j hj
        rw [hzero j] at this
        exact this
    · rw [if_pos (by simp only [decide_eq_true_eq]; omega)]
      simp only [newInvalidType, IsValid]
      constructor
      · intro h; cases h
      · intro ⟨hc, _⟩; exact absurd hc hlen

/-- Counterexample to C2 as stated: for the variadic factory
func(a int, rest ...string) string (declared parameter count n = 2), the
single-argument registration has len(args) = n - 1, which the claim says
must be valid; the code returns an invalid descriptor. -/
theorem claim_C2_counterexample :
    exVariadicFD.variadic = true ∧ exVariadicFD.ins.length = 2 ∧
    IsValid (NewType exVariadicFD [.intV 1]) = false :=
  ⟨rfl, rfl, rfl⟩

/-- C2 as amended: for a well-shaped factory function whose arguments pass
the per-argument kind check, the descriptor is valid iff the argument count
is at least the declared parameter count when the function is variadic
(not the count minus one), and exactly the parameter count otherwise. -/
theorem claim_C2_factory_arity (fd : FuncDef) (ps : List GoValue)
    (hout : fd.outs.length = 1)
    (hchan : (fd.outs.getD 0 .iface).kind ≠ .chanK)
    (hraw : (fd.outs.getD 0 .iface).kind ≠ .rawPointerK)
    (hargs : ∀ j, j < ps.length → argRegistrationOk fd j (ps.getD j (.strV "")) = true) :
    IsValid (NewType fd ps) = true ↔
      (if fd.variadic = true then fd.ins.length ≤ ps.length
       else fd.ins.length = ps.length) := by
  rw [NewType_isValid_iff fd ps hout hchan hraw]
  exact ⟨fun h => h.1, fun h => ⟨h, hargs⟩⟩

/-- Witness for the amended C2: the same variadic factory with exactly two
arguments (its declared parameter count) yields a valid descriptor. -/
theorem claim_C2_factory_arity_witness :
    IsValid (NewType exVariadicFD [.intV 1, .strV "a"]) = true ↔
      (if exVariadicFD.variadic = true then
        exVariadicFD.ins.length ≤ [GoValue.intV 1, GoValue.strV "a"].length
       else exVariadicFD.ins.length = [GoValue.intV 1, GoValue.strV "a"].length) :=
  claim_C2_factory_arity exVariadicFD [.intV 1, .strV "a"] rfl
    (by decide) (by decide) (by decide)

/-- Counterexample to C9 as stated: "hello" is a plain string literal (not
a placeholder or reference) that is not assignable to the declared int
parameter, and NewType rejects it already at registration time with an
invalid descriptor. -/
theorem claim_C9_counterexample :
    IsParameterOrTypeReference "hello" = false ∧
    exIntFD.ins = [GoType.int] ∧
    IsValid (NewType exIntFD [.strV "hello"]) = false :=
  ⟨rfl, rfl, rfl⟩

/-- C9 as amended: at registration only the kind of plain string literals
is checked — a well-shaped, correctly-counted registration is valid iff
every argument passes that per-argument kind check, which accepts every
non-string literal and every placeholder or reference regardless of
assignability; the incompatibility surfaces only at Generate, as the
concrete conjuncts show: a struct-B literal for a struct-A parameter is
accepted at registration and the reflect Call panics when the factory
generates. -/
theorem claim_C9_registration_kind_only (fd : FuncDef) (ps : List GoValue)
    (hout : fd.outs.length = 1)
    (hchan : (fd.outs.getD 0 .iface).kind ≠ .chanK)
    (hraw : (fd.outs.getD 0 .iface).kind ≠ .rawPointerK)
    (hcount : if fd.variadic = true then fd.ins.length ≤ ps.length
              else fd.ins.length = ps.length) :
    (IsValid (NewType fd ps) = true ↔
      ∀ j, j < ps.length → argRegistrationOk fd j (ps.getD j (.strV "")) = true) ∧
    IsValid (NewType exStructParamFD [.struktV (.strukt "B" []) []]) = true ∧
    generateTF exCtx 3 (NewType exStructParamFD [.struktV (.strukt "B" []) []]) st0 =
      (.panicked "reflect: Call using wrong type", st0) := by
  refine ⟨?_, rfl, rfl⟩
  rw [NewType_isValid_iff fd ps hout hchan hraw]
  exact ⟨fun h => h.2, fun h => ⟨hcount, h⟩⟩

/-- Witness for the amended C9: a bool literal where an int is expected is
accepted at registration (non-string literals are never checked). -/
theorem claim_C9_registration_kind_only_witness :
    (IsValid (NewType exIntFD [.boolV true]) = true ↔
      ∀ j, j < [GoValue.boolV true].length →
        argRegistrationOk exIntFD j ([GoValue.boolV true].getD j (.strV "")) = true) ∧
    IsValid (NewType exStructParamFD [.struktV (.strukt "B" []) []]) = true ∧
    generateTF exCtx 3 (NewType exStructParamFD [.struktV (.strukt "B" []) []]) st0 =
      (.panicked "reflect: Call using wrong type", st0) :=
  claim_C9_registration_kind_only exIntFD [.boolV true] rfl (by decide) (by decide)
    (by decide)

/-! ## Claims C7 and C10: the struct factory -/

theorem resolveArgsIdx_ok_length (ctx : Ctx) :
    ∀ (fuel : Nat) (i : Nat) (args : List (GoValue × GoType)) (s : St) (vs : List GoValue)
      (s' : St), resolveArgsIdx ctx fuel i args s = (.ok vs, s') → vs.length = args.length := by
  intro fuel
  induction fuel with
  | zero => intro i args s vs s' h; simp [resolveArgsIdx] at h
  | succ fuel ih =>
    intro i args s vs s' h
    cases args with
    | nil =>
      simp only [resolveArgsIdx] at h
      injection h with h1 h2
      injection h1 with h1
      rw [← h1]
      rfl
    | cons at0 rest =>
      obtain ⟨a, t⟩ := at0
      simp only [resolveArgsIdx] at h
      rcases ha : resolve ctx fuel a t s with ⟨ra, s₁⟩
      rw [ha] at h
      cases ra with
      | ok v =>
        dsimp only at h
        rcases hb : resolveArgsIdx ctx fuel (i + 1) rest s₁ with ⟨rb, s₂⟩
        rw [hb] at h
        cases rb with
        | ok bs =>
          injection h with h1 h2
          injection h1 with h1
          rw [← h1]
          simp [ih (i + 1) rest s₁ bs s₂ hb]
        | err j e => cases h
        | panicked m => cases h
        | fuelOut => cases h
      | err e => cases h
      | panicked m => cases h
      | fuelOut => cases h

/-- The struct factory produced by NewStructType for a struct-or-pointer
template of type `strukt name fs` with a fitting value count. -/
theorem NewStructType_eq_structF (name : String) (fs : List GoType) (tpl : GoValue)
    (vs : List GoValue)
    (htpl : tpl.typeOf = .strukt name fs ∨ tpl.typeOf = .ptr (.strukt name fs))
    (hlen : vs.length ≤ fs.length) :
    NewStructType tpl vs = .structF (.strukt name fs) vs := by
  cases htpl with
  | inl h =>
    simp only [NewStructType, h, newTypeFromStruct, structFieldTypes]
    rw [if_neg (by omega)]
  | inr h =>
    simp only [NewStructType, h, newTypeFromStruct, structFieldTypes]
    rw [if_neg (by omega)]

/-- C7: for a struct type with k fields, NewStructType is invalid iff more
than k values are given; when valid, Generate resolves the given values
against the declared field types in order and returns a pointer to a fresh
struct whose leading fields hold the resolved values and whose trailing
fields hold zero values. -/
theorem claim_C7_struct_factory (name : String) (fs : List GoType) (tpl : GoValue)
    (vs : List GoValue)
    (htpl : tpl.typeOf = .strukt name fs ∨ tpl.typeOf = .ptr (.strukt name fs)) :
    (IsValid (NewStructType tpl vs) = false ↔ fs.length < vs.length) ∧
    (∀ (ctx : Ctx) (fuel : Nat) (s : St) (args : List GoValue) (s₁ : St),
      vs.length ≤ fs.length →
      resolveArgsIdx ctx fuel 0 (vs.zip fs) s = (.ok args, s₁) →
      fieldsAssignable args fs = true →
      generateTF ctx (fuel + 1) (NewStructType tpl vs) s =
        (.ok (.ptrV (.strukt name fs) s₁.nextAddr),
          { s₁ with
            heap := (s₁.nextAddr, GoValue.struktV (.strukt name fs)
              (args ++ zeroValues (fs.drop vs.length))) :: s₁.heap,
            nextAddr := s₁.nextAddr + 1 })) := by
  constructor
  · have hunfold : NewStructType tpl vs = newTypeFromStruct (.strukt name fs) vs := by
      cases htpl with
      | inl h => simp only [NewStructType, h]
      | inr h => simp only [NewStructType, h]
    rw [hunfold]
    unfold newTypeFromStruct
    simp only [structFieldTypes]
    by_cases h : fs.length < vs.length
    · rw [if_pos h]
      simp only [newInvalidType, IsValid]
      exact ⟨fun _ => h, fun _ => trivial⟩
    · rw [if_neg h]
      simp only [IsValid]
      constructor
      · intro hf; cases hf
      · intro hlt; exact absurd hlt h
  · intro ctx fuel s args s₁ hlen hres hassign
    rw [NewStructType_eq_structF name fs tpl vs htpl hlen]
    have hargsLen : args.length = vs.length := by
      have h := resolveArgsIdx_ok_length ctx fuel 0 (vs.zip fs) s args s₁ hres
      rw [List.length_zip] at h
      omega
    simp only [generateTF, structFieldTypes]
    rw [hres]
    dsimp only
    rw [hassign]
    simp only [structFieldValues, hargsLen, if_true]

/-- Witness for C7 at a concrete struct (Name string, Age int) with one
positional value: the first field is set, the trailing field keeps its zero
value; with three values registration is invalid. -/
theorem claim_C7_struct_factory_witness :
    (IsValid (NewStructType (.struktV (.strukt "Foo" [.str, .int]) [.strV "", .intV 0])
        [.strV "a", .intV 1, .intV 2]) = false ↔
      [GoType.str, GoType.int].length < 3) ∧
    generateTF exCtx (3 + 1)
        (NewStructType (.struktV (.strukt "Foo" [.str, .int]) [.strV "", .intV 0]) [.strV "a"])
        st0 =
      (.ok (.ptrV (.strukt "Foo" [.str, .int]) st0.nextAddr),
        { st0 with
          heap := (st0.nextAddr, GoValue.struktV (.strukt "Foo" [.str, .int])
            ([GoValue.strV "a"] ++ zeroValues ([GoType.str, GoType.int].drop 1))) :: st0.heap,
          nextAddr := st0.nextAddr + 1 }) :=
  ⟨(claim_C7_struct_factory "Foo" [.str, .int]
      (.struktV (.strukt "Foo" [.str, .int]) [.strV "", .intV 0])
      [.strV "a", .intV 1, .intV 2] (Or.inl rfl)).1,
   (claim_C7_struct_factory "Foo" [.str, .int]
      (.struktV (.strukt "Foo" [.str, .int]) [.strV "", .intV 0])
      [.strV "a"] (Or.inl rfl)).2 exCtx 3 st0 [.strV "a"] st0 (by decide) rfl rfl⟩

/-- A successful struct Generate returns a pointer to a freshly allocated
cell: the address is at least the incoming allocation bound and the
resulting bound moves past it. -/
theorem generateTF_structF_fresh (ctx : Ctx) (fuel : Nat) (t : GoType)
    (fields : List GoValue) (s s' : St) (v : GoValue)
    (h : generateTF ctx fuel (.structF t fields) s = (.ok v, s')) :
    ∃ a, v = .ptrV t a ∧ s.nextAddr ≤ a ∧ s'.nextAddr = a + 1 := by
  cases fuel with
  | zero => simp [generateTF] at h
  | succ fuel =>
    simp only [generateTF] at h
    rcases ha : resolveArgsIdx ctx fuel 0 (fields.zip (structFieldTypes t)) s with ⟨ra, s₁⟩
    have hstep : StepOK s s₁ := by
      have hs := (stepOK_all ctx fuel).2.2.1 0 (fields.zip (structFieldTypes t)) s
      rw [ha] at hs
      exact hs
    rw [ha] at h
    cases ra with
    | ok args =>
      dsimp only at h
      cases hf : fieldsAssignable args (structFieldTypes t) with
      | false => rw [hf] at h; simp at h
      | true =>
        rw [hf] at h
        rw [if_pos rfl] at h
        injection h with h1 h2
        injection h1 with h1
        refine ⟨s₁.nextAddr, h1.symm, hstep.2, ?_⟩
        rw [← h2]
    | err i e => simp at h
    | panicked m => simp at h
    | fuelOut => simp at h

/-- C10: each struct Generate returns a pointer to a newly allocated
struct — the factory holds only the template's type, never the template
value — and two successive Generate calls return pointers to distinct
allocations; neither result can be any pointer that existed before the
first call (in particular not a registered pointer template). -/
theorem claim_C10_fresh_allocation (ctx : Ctx) (fuel₁ fuel₂ : Nat) (name : String)
    (fs : List GoType) (tpl : GoValue) (vs₁ vs₂ : List GoValue) (s₀ s₁ s₂ : St)
    (v₁ v₂ : GoValue)
    (htpl : tpl.typeOf = .strukt name fs ∨ tpl.typeOf = .ptr (.strukt name fs))
    (hlen₁ : vs₁.length ≤ fs.length) (hlen₂ : vs₂.length ≤ fs.length)
    (h1 : generateTF ctx fuel₁ (NewStructType tpl vs₁) s₀ = (.ok v₁, s₁))
    (h2 : generateTF ctx fuel₂ (NewStructType tpl vs₂) s₁ = (.ok v₂, s₂)) :
    (∃ a₁, v₁ = .ptrV (.strukt name fs) a₁ ∧ s₀.nextAddr ≤ a₁) ∧
    v₁ ≠ v₂ ∧
    (∀ (e : GoType) (a₀ : Nat), a₀ < s₀.nextAddr → v₁ ≠ .ptrV e a₀ ∧ v₂ ≠ .ptrV e a₀) := by
  rw [NewStructType_eq_structF name fs tpl vs₁ htpl hlen₁] at h1
  rw [NewStructType_eq_structF name fs tpl vs₂ htpl hlen₂] at h2
  obtain ⟨a₁, hv₁, hle₁, hnext₁⟩ := generateTF_structF_fresh ctx fuel₁ _ vs₁ s₀ s₁ v₁ h1
  obtain ⟨a₂, hv₂, hle₂, hnext₂⟩ := generateTF_structF_fresh ctx fuel₂ _ vs₂ s₁ s₂ v₂ h2
  have hlt : a₁ < a₂ := by omega
  refine ⟨⟨a₁, hv₁, hle₁⟩, ?_, ?_⟩
  · rw [hv₁, hv₂]
    intro h
    injection h with he ha
    omega
  · intro e a₀ h₀
    constructor
    · rw [hv₁]
      intro h
      injection h with he ha
      omega
    · rw [hv₂]
      intro h
      injection h with he ha
      omega

/-- Witness for C10: two successive Generate calls on a factory registered
with a non-pointer struct template return pointers to the distinct fresh
addresses 0 and 1. -/
theorem claim_C10_fresh_allocation_witness :
    (∃ a₁, GoValue.ptrV (.strukt "Foo" [.str, .int]) 0 = .ptrV (.strukt "Foo" [.str, .int]) a₁ ∧
      st0.nextAddr ≤ a₁) ∧
    GoValue.ptrV (GoType.strukt "Foo" [.str, .int]) 0 ≠ .ptrV (.strukt "Foo" [.str, .int]) 1 ∧
    (∀ (e : GoType) (a₀ : Nat), a₀ < st0.nextAddr →
      GoValue.ptrV (.strukt "Foo" [.str, .int]) 0 ≠ .ptrV e a₀ ∧
      GoValue.ptrV (.strukt "Foo" [.str, .int]) 1 ≠ .ptrV e a₀) :=
  claim_C10_fresh_allocation exCtx 4 4 "Foo" [.str, .int]
    (.struktV (.strukt "Foo" [.str, .int]) [.strV "", .intV 0]) [.strV "a"] [.strV "b"]
    st0
    { st0 with heap := [(0, GoValue.struktV (.strukt "Foo" [.str, .int])
        [.strV "a", .intV 0])], nextAddr := 1 }
    { cache := [], heap := [(1, GoValue.struktV (.strukt "Foo" [.str, .int])
        [.strV "b", .intV 0]),
        (0, GoValue.struktV (.strukt "Foo" [.str, .int]) [.strV "a", .intV 0])],
      nextAddr := 2 }
    (.ptrV (.strukt "Foo" [.str, .int]) 0) (.ptrV (.strukt "Foo" [.str, .int]) 1)
    (Or.inl rfl) (by decide) (by decide) rfl rfl

/-! ## Claim C6: generation failures are wrapped and not cached -/

/-- C6: when the registered descriptor's Generate fails, Get returns an
error wrapping the failure with the while-generating context naming the
id, performs no cache store itself (the returned state is exactly the
post-Generate state, so if Generate left no entry for the id there is
none), and an entry for the id is stored exactly on success. -/
theorem claim_C6_generate_error_wrapped (ctx : Ctx) (fuel : Nat) (typeID : String)
    (f : TypeFactory) (s : St)
    (hcache : lookupAssoc s.cache typeID = none)
    (hreg : lookupAssoc ctx.registry typeID = some f) :
    (∀ e s', generateTF ctx fuel f s = (.err e, s') →
      containerGet ctx (fuel + 1) typeID s = (.err (.whileGenerating typeID e), s') ∧
      errMessage (.whileGenerating typeID e) =
        "goldi: error while generating type \"" ++ typeID ++ "\": " ++ errMessage e ∧
      (lookupAssoc s'.cache typeID = none →
        lookupAssoc ((containerGet ctx (fuel + 1) typeID s).2).cache typeID = none)) ∧
    (∀ v s₂, generateTF ctx fuel f s = (.ok v, s₂) →
      containerGet ctx (fuel + 1) typeID s =
        (.ok v, { s₂ with cache := storeAssoc s₂.cache typeID v }) ∧
      lookupAssoc ({ s₂ with cache := storeAssoc s₂.cache typeID v } : St).cache typeID =
        some v) := by
  constructor
  · intro e s' hgen
    have hget : getC ctx (fuel + 1) typeID s = (.err (.whileGenerating typeID e), s') := by
      simp only [getC, hcache, hreg]
      rw [hgen]
    refine ⟨?_, rfl, ?_⟩
    · simp only [containerGet, hget]
    · intro hnone
      simp only [containerGet, hget]
      exact hnone
  · intro v s₂ hgen
    have hget : getC ctx (fuel + 1) typeID s =
        (.ok (some v), { s₂ with cache := storeAssoc s₂.cache typeID v }) := by
      simp only [getC, hcache, hreg]
      rw [hgen]
    refine ⟨?_, ?_⟩
    · simp only [containerGet, hget]
    · exact lookupAssoc_storeAssoc_self _ _ _

/-- Witness for C6: the invalid descriptor registered under "bad" fails
with "boom", and Get wraps it naming "bad" while the cache keeps no entry
for "bad". -/
theorem claim_C6_generate_error_wrapped_witness :
    containerGet exBadCtx (3 + 1) "bad" st0 =
      (.err (.whileGenerating "bad" (.generic "boom")), st0) ∧
    errMessage (.whileGenerating "bad" (.generic "boom")) =
      "goldi: error while generating type \"" ++ "bad" ++ "\": " ++ errMessage (.generic "boom") ∧
    (lookupAssoc st0.cache "bad" = none →
      lookupAssoc ((containerGet exBadCtx (3 + 1) "bad" st0).2).cache "bad" = none) :=
  (claim_C6_generate_error_wrapped exBadCtx 3 "bad" (newInvalidType (.generic "boom")) st0
    rfl rfl).1 (.generic "boom") st0 rfl

/-! ## Claim C8: the validator detects cycles and always terminates -/

theorem lookupAssoc_mem {α : Type} : ∀ (l : List (String × α)) (k : String) (v : α),
    lookupAssoc l k = some v → (k, v) ∈ l := by
  intro l
  induction l with
  | nil => intro k v h; cases h
  | cons hd tl ih =>
    intro k v h
    obtain ⟨k', v'⟩ := hd
    simp only [lookupAssoc] at h
    by_cases hk : k' = k
    · rw [if_pos hk] at h
      injection h with h
      subst hk; rw [h]
      exact List.mem_cons_self _ _
    · rw [if_neg hk] at h
      exact List.mem_cons_of_mem _ (ih k v h)

theorem mem_foldr_insert (l : List String) (acc : Finset String) (x : String) :
    x ∈ l.foldr insert acc ↔ x ∈ l ∨ x ∈ acc := by
  induction l with
  | nil => simp
  | cons a rest ih =>
    simp [List.foldr_cons, Finset.mem_insert, ih, List.mem_cons, or_assoc]

theorem mem_refUniverse (reg : List (String × TypeFactory)) (k : String) (f : TypeFactory)
    (hmem : (k, f) ∈ reg) (r : String) (hr : r ∈ typeReferenceArguments f.arguments) :
    r ∈ refUniverse reg := by
  induction reg with
  | nil => cases hmem
  | cons e rest ih =>
    rw [show refUniverse (e :: rest) =
      (typeReferenceArguments e.2.arguments).foldr insert (refUniverse rest) from rfl]
    rw [mem_foldr_insert]
    rcases List.mem_cons.1 hmem with he | ht
    · left; rw [← he]; exact hr
    · right; exact ih ht

theorem nu_anti_mono (U : Finset String) (tid : String) (m m' : Finset String)
    (h : m ⊆ m') : nu U tid m' ≤ nu U tid m := by
  unfold nu
  have h1 : (U \ insert tid m').card ≤ (U \ insert tid m).card :=
    Finset.card_le_card
      (Finset.sdiff_subset_sdiff (Finset.Subset.refl U) (Finset.insert_subset_insert tid h))
  by_cases h2 : tid ∈ m
  · rw [if_pos h2, if_pos (h h2)]; omega
  · by_cases h3 : tid ∈ m'
    · rw [if_neg h2, if_pos h3]; omega
    · rw [if_neg h2, if_neg h3]; omega

theorem nu_step (U : Finset String) (tid r : String) (m : Finset String)
    (hrU : r ∈ U) (hrm : r ∉ m) :
    nu U r (insert tid m) + 1 ≤ nu U tid m := by
  unfold nu
  by_cases hrt : r = tid
  · subst hrt
    rw [Finset.insert_idem, if_pos (Finset.mem_insert_self r m), if_neg hrm]
  · have hri : r ∉ insert tid m := by
      intro hmem
      rcases Finset.mem_insert.1 hmem with h | h
      · exact hrt h
      · exact hrm h
    have hrmem : r ∈ U \ insert tid m := Finset.mem_sdiff.2 ⟨hrU, hri⟩
    have hcard : (U \ insert r (insert tid m)).card = (U \ insert tid m).card - 1 := by
      rw [Finset.sdiff_insert]
      exact Finset.card_erase_of_mem hrmem
    have hpos : 1 ≤ (U \ insert tid m).card := by
      have := Finset.card_pos.2 ⟨r, hrmem⟩
      omega
    rw [if_neg hri, hcard]
    split_ifs <;> omega

/-- The loop of the circular-dependency walk only ever grows the shared
check map, provided the nested walk does. -/
theorem ccdLoop_mono (reg : List (String × TypeFactory))
    (next : TypeFactory → String → Finset String → VRes)
    (hnext : ∀ f tid m m', next f tid m = .ok m' → m ⊆ m') :
    ∀ (refs : List String) (tid : String) (m m' : Finset String),
      ccdLoop reg next refs tid m = .ok m' → m ⊆ m' := by
  intro refs
  induction refs with
  | nil =>
    intro tid m m' h
    simp only [ccdLoop] at h
    injection h with h
    exact h ▸ Finset.Subset.refl m
  | cons r rest ihr =>
    intro tid m m' h
    simp only [ccdLoop] at h
    cases hl : lookupAssoc reg (NewTypeID r).ID with
    | none =>
      rw [hl] at h
      injection h with h
      exact h ▸ Finset.Subset.refl m
    | some rf =>
      rw [hl] at h
      dsimp only at h
      by_cases hm : r ∈ m
      · rw [if_pos hm] at h; simp at h
      · rw [if_neg hm] at h
        cases hc : next rf r (insert tid m) with
        | ok m₁ =>
          rw [hc] at h
          exact (Finset.subset_insert tid m).trans
            ((hnext rf r _ m₁ hc).trans (ihr tid m₁ m' h))
        | err e => rw [hc] at h; simp at h
        | fuelOut => rw [hc] at h; simp at h

/-- The circular-dependency walk only ever grows the shared check map. -/
theorem ccd_mono (reg : List (String × TypeFactory)) :
    ∀ (fuel : Nat) (f : TypeFactory) (tid : String) (m m' : Finset String),
      checkCircularDependency reg fuel f tid m = .ok m' → m ⊆ m' := by
  intro fuel
  induction fuel with
  | zero => intro f tid m m' h; simp [checkCircularDependency] at h
  | succ k ih =>
    intro f tid m m' h
    simp only [checkCircularDependency] at h
    exact ccdLoop_mono reg (checkCircularDependency reg k) ih _ tid m m' h

/-- Fuel sufficiency for the loop, given sufficiency for the nested walk. -/
theorem ccdLoop_no_fuelOut_of (reg : List (String × TypeFactory)) (fuel : Nat)
    (next : TypeFactory → String → Finset String → VRes)
    (hmono : ∀ f tid m m', next f tid m = .ok m' → m ⊆ m')
    (hnofuel : ∀ f tid m, registered reg f → nu (refUniverse reg) tid m + 1 ≤ fuel →
      next f tid m ≠ .fuelOut) :
    ∀ (refs : List String) (tid : String) (m : Finset String),
      (∀ r ∈ refs, r ∈ refUniverse reg) → nu (refUniverse reg) tid m ≤ fuel →
      ccdLoop reg next refs tid m ≠ .fuelOut := by
  intro refs
  induction refs with
  | nil => intro tid m _ _ h; simp [ccdLoop] at h
  | cons r rest ihr =>
    intro tid m hrefs hfuel h
    simp only [ccdLoop] at h
    cases hl : lookupAssoc reg (NewTypeID r).ID with
    | none => rw [hl] at h; simp at h
    | some rf =>
      rw [hl] at h
      dsimp only at h
      by_cases hm : r ∈ m
      · rw [if_pos hm] at h; simp at h
      · rw [if_neg hm] at h
        have hrU : r ∈ refUniverse reg := hrefs r (List.mem_cons_self r rest)
        have hstep := nu_step (refUniverse reg) tid r m hrU hm
        have hinner := hnofuel rf r (insert tid m) ⟨(NewTypeID r).ID, hl⟩ (by omega)
        cases hc : next rf r (insert tid m) with
        | ok m₁ =>
          rw [hc] at h
          have hsub : m ⊆ m₁ :=
            (Finset.subset_insert tid m).trans (hmono rf r _ m₁ hc)
          exact ihr tid m₁ (fun x hx => hrefs x (List.mem_cons_of_mem r hx))
            (le_trans (nu_anti_mono _ tid m m₁ hsub) hfuel) h
        | err e => rw [hc] at h; simp at h
        | fuelOut => exact hinner hc

/-- Fuel sufficiency for the circular-dependency walk: the walk completes
(with a verdict, never fuel exhaustion) whenever the fuel exceeds the
measure, so the Go recursion terminates on every finite registry. -/
theorem ccd_no_fuelOut (reg : List (String × TypeFactory)) :
    ∀ (fuel : Nat) (f : TypeFactory) (tid : String) (m : Finset String),
      registered reg f → nu (refUniverse reg) tid m + 1 ≤ fuel →
      checkCircularDependency reg fuel f tid m ≠ .fuelOut := by
  intro fuel
  induction fuel with
  | zero => intro f tid m _ hfuel; omega
  | succ k ih =>
    intro f tid m hreg hfuel h
    simp only [checkCircularDependency] at h
    refine ccdLoop_no_fuelOut_of reg k (checkCircularDependency reg k)
      (ccd_mono reg k) ?_ _ tid m ?_ ?_ h
    · intro f' tid' m' hreg' hfuel'
      exact ih f' tid' m' hreg' hfuel'
    · intro r hr
      obtain ⟨kk, hkk⟩ := hreg
      exact mem_refUniverse reg kk f (lookupAssoc_mem reg kk f hkk) r hr
    · omega

theorem vtrLoop_no_fuelOut (reg : List (String × TypeFactory)) :
    ∀ (refs : List String) (typeID : String) (checked : Finset String),
      (∀ r ∈ refs, r ∈ refUniverse reg) →
      vtrLoop reg (validateFuel reg) typeID refs checked ≠ .fuelOut := by
  intro refs
  induction refs with
  | nil => intro t c _ h; simp [vtrLoop] at h
  | cons r rest ihr =>
    intro typeID checked hrefs h
    simp only [vtrLoop] at h
    by_cases hchk : r ∈ checked
    · rw [if_pos hchk] at h
      exact ihr typeID checked (fun x hx => hrefs x (List.mem_cons_of_mem r hx)) h
    · rw [if_neg hchk] at h
      cases hl : lookupAssoc reg (NewTypeID r).ID with
      | none => rw [hl] at h; simp at h
      | some rf =>
        rw [hl] at h
        dsimp only at h
        have hbound : nu (refUniverse reg) r (insert typeID ∅) + 1 ≤ validateFuel reg := by
          unfold nu validateFuel
          have h1 : (refUniverse reg \ insert r (insert typeID ∅)).card ≤
              (refUniverse reg).card := Finset.card_le_card Finset.sdiff_subset
          split_ifs <;> omega
        have hinner := ccd_no_fuelOut reg (validateFuel reg) rf r (insert typeID ∅)
          ⟨(NewTypeID r).ID, hl⟩ hbound
        cases hc : checkCircularDependency reg (validateFuel reg) rf r (insert typeID ∅) with
        | ok m₁ =>
          rw [hc] at h
          exact ihr typeID (insert r checked)
            (fun x hx => hrefs x (List.mem_cons_of_mem r hx)) h
        | err e => rw [hc] at h; simp at h
        | fuelOut => exact hinner hc

theorem validateLoop_no_fuelOut (reg : List (String × TypeFactory)) :
    ∀ (entries : List (String × TypeFactory)),
      (∀ e ∈ entries, e ∈ reg) →
      validateLoop reg (validateFuel reg) entries ≠ .fuelOut := by
  intro entries
  induction entries with
  | nil => intro _ h; simp [validateLoop] at h
  | cons e rest ihe =>
    intro hmem h
    obtain ⟨typeID, tf⟩ := e
    simp only [validateLoop] at h
    have hrefs : ∀ r ∈ typeReferenceArguments tf.arguments, r ∈ refUniverse reg :=
      fun r hr => mem_refUniverse reg typeID tf (hmem _ (List.mem_cons_self _ _)) r hr
    cases hv : vtrLoop reg (validateFuel reg) typeID
        (typeReferenceArguments tf.arguments) ∅ with
    | ok c =>
      rw [hv] at h
      exact ihe (fun x hx => hmem x (List.mem_cons_of_mem _ hx)) h
    | err e2 => rw [hv] at h; simp at h
    | fuelOut => exact vtrLoop_no_fuelOut reg _ typeID ∅ hrefs hv

/-- C8: the registry A -> @B, B -> @A fails validation with a circular
dependency error naming A and B; the acyclic chain A -> @B -> @C validates
successfully; and the validation walk terminates (never exhausts its fuel)
for every finite registry, including the self-reference A -> @A (which
reports the cycle A, A) and the diamond-shaped acyclic registry (which
validates successfully). -/
theorem claim_C8_validator_cycles_and_termination :
    Validate cycleReg = .err (.circularDep "A" "B") ∧
    vErrMessage (.circularDep "A" "B") =
      "detected circular dependency for type \"A\" (referenced by \"B\")" ∧
    Validate chainReg = .ok ∅ ∧
    Validate selfReg = .err (.circularDep "A" "A") ∧
    Validate diamondReg = .ok ∅ ∧
    (∀ reg : List (String × TypeFactory), Validate reg ≠ .fuelOut) :=
  ⟨by decide, rfl, by decide, by decide, by decide,
   fun reg => validateLoop_no_fuelOut reg reg (fun _ hx => hx)⟩

end Goldi
